import Mathlib

/-!
Shallow embedding of the avito-intro PR-reviewer service.

Entities come from internal/entity, the in-memory repository from
internal/repository/memory.go (Go maps are modelled as association lists
keyed by the entity identifier; UUIDs are modelled as Nat, timestamps as
Nat), and the business operations from internal/usecase.  Go code that
mutates the repository in place is modelled in state-passing style: each
operation returns the new repository state together with its
result-or-error, and an operation that fails before any write returns the
input state unchanged.  The process-wide pseudo-random source is modelled
by explicit parameters: a `shuffle` function for `rand.Shuffle` (assumed to
permute its input in the theorems) and a `pick` index for `rand.Intn`.
-/

/-- internal/entity/user.go: User. -/
structure User where
  userID : Nat
  username : String
  teamName : String
  isActive : Bool
deriving DecidableEq

/-- Modelled from the spec: the entity file declaring Team is not under
src/; the spec fixes it as a unique name plus the ordered list of member
user identifiers, matching every use in usecase/team.go and
repository/memory.go. -/
structure Team where
  teamName : String
  members : List Nat
deriving DecidableEq

/-- internal/entity/pull_request.go: PullRequestStatus (OPEN / MERGED). -/
inductive PullRequestStatus where
  | statusOpen
  | statusMerged
deriving DecidableEq

/-- internal/entity/pull_request.go: PullRequest. -/
structure PullRequest where
  pullRequestID : Nat
  pullRequestName : String
  authorID : Nat
  status : PullRequestStatus
  assignedReviewers : List Nat
  createdAt : Nat
  mergedAt : Option Nat
deriving DecidableEq

/-- The error taxonomy: repository.ErrNotFound / ErrAlreadyExists and
usecase.ErrPRMerged / ErrNotAssigned / ErrNoCandidate. -/
inductive UCError where
  | notFound
  | alreadyExists
  | prMerged
  | notAssigned
  | noCandidate
deriving DecidableEq

/-- memory.go GetUser: lookup in the users map by identifier. -/
def getUser (us : List User) (id : Nat) : Option User :=
  us.find? (fun u => u.userID == id)

/-- memory.go UserExists. -/
def userExists (us : List User) (id : Nat) : Bool :=
  (getUser us id).isSome

/-- memory.go GetUsersByTeam: all users whose team name matches. -/
def getUsersByTeam (us : List User) (tn : String) : List User :=
  us.filter (fun u => u.teamName == tn)

/-- memory.go GetUsersByIDs: resolve each identifier, skipping absentees. -/
def getUsersByIDs (us : List User) (ids : List Nat) : List User :=
  ids.filterMap (fun id => getUser us id)

/-- memory.go CreateUser: fails with AlreadyExists on a duplicate key,
otherwise inserts. -/
def createUser (us : List User) (u : User) : List User × Option UCError :=
  if userExists us u.userID then (us, some UCError.alreadyExists)
  else (us ++ [u], none)

/-- memory.go UpdateUser: fails with NotFound when absent, otherwise
overwrites the record stored under the key. -/
def updateUser (us : List User) (u : User) : List User × Option UCError :=
  if userExists us u.userID then
    (us.map (fun x => if x.userID == u.userID then u else x), none)
  else (us, some UCError.notFound)

/-- memory.go GetTeam (repository level): lookup in the teams map. -/
def getTeamRec (ts : List Team) (tn : String) : Option Team :=
  ts.find? (fun t => t.teamName == tn)

/-- memory.go TeamExists. -/
def teamExists (ts : List Team) (tn : String) : Bool :=
  (getTeamRec ts tn).isSome

/-- memory.go CreateTeam: fails with AlreadyExists on a duplicate name,
otherwise inserts. -/
def createTeam (ts : List Team) (t : Team) : List Team × Option UCError :=
  if teamExists ts t.teamName then (ts, some UCError.alreadyExists)
  else (ts ++ [t], none)

/-- memory.go GetPullRequest: lookup in the pull-requests map. -/
def getPullRequest (prs : List PullRequest) (id : Nat) : Option PullRequest :=
  prs.find? (fun p => p.pullRequestID == id)

/-- memory.go PRExists. -/
def prExists (prs : List PullRequest) (id : Nat) : Bool :=
  (getPullRequest prs id).isSome

/-- memory.go CreatePullRequest: fails with AlreadyExists on a duplicate
key, otherwise inserts. -/
def createPullRequest (prs : List PullRequest) (pr : PullRequest) :
    List PullRequest × Option UCError :=
  if prExists prs pr.pullRequestID then (prs, some UCError.alreadyExists)
  else (prs ++ [pr], none)

/-- memory.go UpdatePullRequest: fails with NotFound when absent, otherwise
overwrites the record stored under the key. -/
def updatePullRequest (prs : List PullRequest) (pr : PullRequest) :
    List PullRequest × Option UCError :=
  if prExists prs pr.pullRequestID then
    (prs.map (fun p => if p.pullRequestID == pr.pullRequestID then pr else p), none)
  else (prs, some UCError.notFound)

/-- usecase/pull_request.go filterActiveCandidates: teammates other than the
author that are active. -/
def filterActiveCandidates (teamMembers : List User) (authorID : Nat) : List User :=
  teamMembers.filter (fun m => m.userID != authorID && m.isActive)

/-- usecase/pull_request.go selectRandomReviewers: take min(len, maxCount)
reviewers from the shuffled candidate list (`shuffle` models rand.Shuffle). -/
def selectRandomReviewers (shuffle : List User → List User)
    (candidates : List User) (maxCount : Nat) : List Nat :=
  let count := min candidates.length maxCount
  if count = 0 then []
  else ((shuffle candidates).take count).map (fun u => u.userID)

/-- usecase/pull_request.go assignReviewers: candidates are the author's
active teammates, at most two are selected. -/
def assignReviewers (shuffle : List User → List User)
    (us : List User) (author : User) : List Nat :=
  selectRandomReviewers shuffle
    (filterActiveCandidates (getUsersByTeam us author.teamName) author.userID) 2

/-- usecase/pull_request.go CreatePR: reject a duplicate PR id, resolve the
author, assign reviewers, persist the new PR in Open status with a null
merge timestamp. -/
def createPR (shuffle : List User → List User)
    (us : List User) (prs : List PullRequest)
    (prID : Nat) (prName : String) (authorID : Nat) (now : Nat) :
    List PullRequest × Except UCError PullRequest :=
  if prExists prs prID then (prs, Except.error UCError.alreadyExists)
  else
    match getUser us authorID with
    | none => (prs, Except.error UCError.notFound)
    | some author =>
      let reviewers := assignReviewers shuffle us author
      let pr : PullRequest :=
        { pullRequestID := prID
          pullRequestName := prName
          authorID := authorID
          status := PullRequestStatus.statusOpen
          assignedReviewers := reviewers
          createdAt := now
          mergedAt := none }
      match createPullRequest prs pr with
      | (prs2, none) => (prs2, Except.ok pr)
      | (prs2, some e) => (prs2, Except.error e)

/-- usecase/pull_request.go MergePR: NotFound when absent; a no-op on an
already-merged PR; otherwise set Merged status and the merge timestamp and
persist. -/
def mergePR (prs : List PullRequest) (prID : Nat) (now : Nat) :
    List PullRequest × Except UCError PullRequest :=
  match getPullRequest prs prID with
  | none => (prs, Except.error UCError.notFound)
  | some pr =>
    if pr.status = PullRequestStatus.statusMerged then (prs, Except.ok pr)
    else
      let pr2 := { pr with status := PullRequestStatus.statusMerged, mergedAt := some now }
      match updatePullRequest prs pr2 with
      | (prs2, none) => (prs2, Except.ok pr2)
      | (prs2, some e) => (prs2, Except.error e)

/-- usecase/pull_request.go filterReplacementCandidates: active teammates
that are neither the author nor already assigned. -/
def filterReplacementCandidates (teamMembers : List User) (authorID : Nat)
    (currentReviewers : List Nat) : List User :=
  teamMembers.filter
    (fun m => m.isActive && m.userID != authorID && !(currentReviewers.contains m.userID))

/-- usecase/pull_request.go findReplacementReviewer: NoCandidate when the
filtered candidate list is empty, otherwise one candidate selected by the
random index `pick` (models rand.Intn). -/
def findReplacementReviewer (pick : Nat) (us : List User) (teamName : String)
    (authorID : Nat) (currentReviewers : List Nat) : Except UCError User :=
  let candidates :=
    filterReplacementCandidates (getUsersByTeam us teamName) authorID currentReviewers
  if h : candidates = [] then Except.error UCError.noCandidate
  else
    Except.ok (candidates.get
      ⟨pick % candidates.length, Nat.mod_lt pick (List.length_pos.mpr h)⟩)

/-- usecase/pull_request.go replaceReviewer: overwrite the first occurrence
of the old reviewer's identifier in place. -/
def replaceReviewer (revs : List Nat) (oldID newID : Nat) : List Nat :=
  match revs with
  | [] => []
  | x :: xs => if x = oldID then newID :: xs else x :: replaceReviewer xs oldID newID

/-- usecase/pull_request.go ReassignReviewer: checks, in order, that the PR
exists, is not merged, that the old reviewer is assigned and resolves to a
user; then replaces it in place by a replacement candidate and persists. -/
def reassignReviewer (pick : Nat) (us : List User) (prs : List PullRequest)
    (prID : Nat) (oldReviewerID : Nat) :
    List PullRequest × Except UCError (PullRequest × Nat) :=
  match getPullRequest prs prID with
  | none => (prs, Except.error UCError.notFound)
  | some pr =>
    if pr.status = PullRequestStatus.statusMerged then
      (prs, Except.error UCError.prMerged)
    else if oldReviewerID ∈ pr.assignedReviewers then
      match getUser us oldReviewerID with
      | none => (prs, Except.error UCError.notFound)
      | some oldReviewer =>
        match findReplacementReviewer pick us oldReviewer.teamName pr.authorID
            pr.assignedReviewers with
        | Except.error e => (prs, Except.error e)
        | Except.ok newReviewer =>
          let newRevs := replaceReviewer pr.assignedReviewers oldReviewerID newReviewer.userID
          let pr2 := { pr with assignedReviewers := newRevs }
          match updatePullRequest prs pr2 with
          | (prs2, none) => (prs2, Except.ok (pr2, newReviewer.userID))
          | (prs2, some e) => (prs2, Except.error e)
    else (prs, Except.error UCError.notAssigned)

/-- The user-repository operations consumed by usecase/team.go
(repository.UserRepository contract), abstracted over the backing state so
that a failing upsert is expressible; failing operations return the state
they left behind. -/
structure UserRepoOps (σ : Type) where
  userExists : σ → Nat → Bool
  createUser : σ → User → σ × Option UCError
  updateUser : σ → User → σ × Option UCError

/-- One iteration of usecase/team.go createOrUpdateMembers: update an
existing user record, create a missing one. -/
def upsertMember {σ : Type} (ops : UserRepoOps σ) (s : σ) (m : User) :
    σ × Option UCError :=
  if ops.userExists s m.userID then ops.updateUser s m else ops.createUser s m

/-- usecase/team.go createOrUpdateMembers: upsert each member in order,
stopping at the first error. -/
def createOrUpdateMembersA {σ : Type} (ops : UserRepoOps σ) :
    σ → List User → σ × Option UCError
  | s, [] => (s, none)
  | s, m :: rest =>
    match upsertMember ops s m with
    | (s2, some e) => (s2, some e)
    | (s2, none) => createOrUpdateMembersA ops s2 rest

/-- usecase/team.go AddTeam over the abstract user repository: reject a
duplicate team name, upsert every member, then create the team record (the
repository CreateTeam re-checks the name). -/
def addTeamA {σ : Type} (ops : UserRepoOps σ) (ts : List Team) (s : σ)
    (team : Team) (members : List User) :
    (List Team × σ) × Except UCError Team :=
  if teamExists ts team.teamName then ((ts, s), Except.error UCError.alreadyExists)
  else
    match createOrUpdateMembersA ops s members with
    | (s2, some e) => ((ts, s2), Except.error e)
    | (s2, none) =>
      match createTeam ts team with
      | (ts2, none) => ((ts2, s2), Except.ok team)
      | (ts2, some e) => ((ts2, s2), Except.error e)

/-- The in-memory instantiation of the user-repository contract. -/
def memoryUserOps : UserRepoOps (List User) :=
  { userExists := userExists, createUser := createUser, updateUser := updateUser }

/-- usecase/team.go createOrUpdateMembers against the in-memory repository. -/
def createOrUpdateMembers (us : List User) (members : List User) :
    List User × Option UCError :=
  createOrUpdateMembersA memoryUserOps us members

/-- usecase/team.go AddTeam against the in-memory repository. -/
def addTeam (ts : List Team) (us : List User) (team : Team) (members : List User) :
    (List Team × List User) × Except UCError Team :=
  addTeamA memoryUserOps ts us team members

/-- usecase/team.go GetTeam: NotFound for a missing team, otherwise the team
record with its member identifiers resolved to user records. -/
def getTeam (ts : List Team) (us : List User) (tn : String) :
    Except UCError (Team × List User) :=
  match getTeamRec ts tn with
  | none => Except.error UCError.notFound
  | some team => Except.ok (team, getUsersByIDs us team.members)

/-- A single in-memory upsert as a total function on the user map (memory
upserts cannot fail: the existence check selects the branch that succeeds). -/
def upsertUserMem (us : List User) (m : User) : List User :=
  if userExists us m.userID then
    us.map (fun x => if x.userID == m.userID then m else x)
  else us ++ [m]

/-- The spec invariant on one PR: the merge timestamp is set exactly when
the status is Merged. -/
def mergedAtConsistent (pr : PullRequest) : Prop :=
  pr.mergedAt.isSome = true ↔ pr.status = PullRequestStatus.statusMerged

/-- The spec invariant over the stored pull requests. -/
def prStoreConsistent (prs : List PullRequest) : Prop :=
  ∀ pr ∈ prs, mergedAtConsistent pr

/-- A user-repository instance over a Nat state whose second create fails,
exercising the partial-failure path of the member upserts. -/
def flakyUserOps : UserRepoOps Nat :=
  { userExists := fun _ _ => false
    createUser := fun s _ => if s = 0 then (1, none) else (s, some UCError.alreadyExists)
    updateUser := fun s _ => (s, none) }

/-- A successful user lookup returns a stored record whose key matches. -/
theorem getUser_eq_some (us : List User) (id : Nat) (u : User)
    (h : getUser us id = some u) : u ∈ us ∧ u.userID = id := by
  refine ⟨List.mem_of_find?_eq_some h, ?_⟩
  have hp := List.find?_some h
  simpa using hp

/-- A successful PR lookup returns a stored record whose key matches. -/
theorem getPullRequest_eq_some (prs : List PullRequest) (id : Nat) (pr : PullRequest)
    (h : getPullRequest prs id = some pr) : pr ∈ prs ∧ pr.pullRequestID = id := by
  refine ⟨List.mem_of_find?_eq_some h, ?_⟩
  have hp := List.find?_some h
  simpa using hp

/-- replaceReviewer rewrites the list at an index holding the old
identifier, leaving everything else in place. -/
theorem replaceReviewer_set (revs : List Nat) (oldID newID : Nat)
    (h : oldID ∈ revs) :
    ∃ i, revs[i]? = some oldID ∧
      replaceReviewer revs oldID newID = revs.set i newID := by
  induction revs with
  | nil => simp at h
  | cons x xs ih =>
    by_cases hx : x = oldID
    · exact ⟨0, by simp [hx], by simp [replaceReviewer, hx]⟩
    · have hmem : oldID ∈ xs := by
        rcases List.mem_cons.mp h with h1 | h1
        · exact absurd h1.symm hx
        · exact h1
      obtain ⟨i, hget, heq⟩ := ih hmem
      exact ⟨i + 1, by simpa using hget, by simp [replaceReviewer, hx, heq]⟩


/-- Unfolding a PR lookup one stored record at a time. -/
theorem getPullRequest_cons (p : PullRequest) (rest : List PullRequest) (id : Nat) :
    getPullRequest (p :: rest) id =
      if p.pullRequestID = id then some p else getPullRequest rest id := by
  unfold getPullRequest
  rw [List.find?_cons]
  by_cases h : p.pullRequestID = id
  · simp [h]
  · have hb : (p.pullRequestID == id) = false := by simp [h]
    rw [hb, if_neg h]

/-- Unfolding a user lookup one stored record at a time. -/
theorem getUser_cons (u : User) (rest : List User) (id : Nat) :
    getUser (u :: rest) id =
      if u.userID = id then some u else getUser rest id := by
  unfold getUser
  rw [List.find?_cons]
  by_cases h : u.userID = id
  · simp [h]
  · have hb : (u.userID == id) = false := by simp [h]
    rw [hb, if_neg h]

/-- After overwriting the entry stored under a PR key, looking the key up
returns the new record. -/
theorem getPullRequest_map_update (prs : List PullRequest) (prID : Nat)
    (pr pr2 : PullRequest)
    (hg : getPullRequest prs prID = some pr) (hid : pr2.pullRequestID = pr.pullRequestID) :
    getPullRequest
      (prs.map (fun p => if p.pullRequestID == pr2.pullRequestID then pr2 else p)) prID
      = some pr2 := by
  have hpr : pr.pullRequestID = prID := (getPullRequest_eq_some prs prID pr hg).2
  induction prs with
  | nil => simp [getPullRequest] at hg
  | cons p rest ih =>
    simp only [List.map_cons]
    by_cases hpp : p.pullRequestID = prID
    · have hppr : pr = p := by
        rw [getPullRequest_cons, if_pos hpp] at hg
        exact (Option.some_inj.mp hg).symm
      have hc : (p.pullRequestID == pr2.pullRequestID) = true := by
        simp [hid, ← hppr, hpp, hpr]
      rw [if_pos hc, getPullRequest_cons, if_pos (hid.trans hpr)]
    · rw [getPullRequest_cons, if_neg hpp] at hg
      have hc : ¬((p.pullRequestID == pr2.pullRequestID) = true) := by
        simp [hid, hpr]
        exact hpp
      rw [if_neg hc, getPullRequest_cons, if_neg hpp]
      exact ih hg

/-- Claim C5: MergePR is idempotent: once a merge call has returned a PR,
calling MergePR again on the same identifier returns the same PR (same
status, same merge timestamp) without modifying stored state. -/
theorem mergePR_idempotent (prs : List PullRequest) (prID now now2 : Nat)
    (prs1 : List PullRequest) (pr1 : PullRequest)
    (h : mergePR prs prID now = (prs1, Except.ok pr1)) :
    mergePR prs1 prID now2 = (prs1, Except.ok pr1) := by
  unfold mergePR at h
  cases hg : getPullRequest prs prID with
  | none => rw [hg] at h; simp at h
  | some pr =>
    rw [hg] at h
    dsimp only at h
    by_cases hm : pr.status = PullRequestStatus.statusMerged
    · rw [if_pos hm] at h
      simp only [Prod.mk.injEq, Except.ok.injEq] at h
      obtain ⟨h1, h2⟩ := h
      subst h1; subst h2
      unfold mergePR
      rw [hg]
      dsimp only
      rw [if_pos hm]
    · rw [if_neg hm] at h
      have hex : prExists prs
          ({ pr with status := PullRequestStatus.statusMerged,
                     mergedAt := some now } : PullRequest).pullRequestID = true := by
        have hidp : pr.pullRequestID = prID := (getPullRequest_eq_some prs prID pr hg).2
        simp [prExists, hidp, hg]
      unfold updatePullRequest at h
      rw [if_pos hex] at h
      dsimp only at h
      simp only [Prod.mk.injEq, Except.ok.injEq] at h
      obtain ⟨h1, h2⟩ := h
      subst h1; subst h2
      have hg1 := getPullRequest_map_update prs prID pr
        ({ pr with status := PullRequestStatus.statusMerged, mergedAt := some now })
        hg rfl
      unfold mergePR
      rw [hg1]
      dsimp only
      rw [if_pos rfl]

/-- Claim C4: ReassignReviewer checks its preconditions in order — PR exists
(NotFound), PR not merged (PRMerged), old reviewer assigned (NotAssigned),
old reviewer resolves to a user (NotFound) — returning the error of the
first failing check with the stored state unchanged. -/
theorem reassignReviewer_precondition_order (pick : Nat) (us : List User)
    (prs : List PullRequest) (prID oldID : Nat) :
    (getPullRequest prs prID = none →
      reassignReviewer pick us prs prID oldID = (prs, Except.error UCError.notFound)) ∧
    (∀ pr, getPullRequest prs prID = some pr →
      pr.status = PullRequestStatus.statusMerged →
      reassignReviewer pick us prs prID oldID = (prs, Except.error UCError.prMerged)) ∧
    (∀ pr, getPullRequest prs prID = some pr →
      pr.status ≠ PullRequestStatus.statusMerged →
      oldID ∉ pr.assignedReviewers →
      reassignReviewer pick us prs prID oldID = (prs, Except.error UCError.notAssigned)) ∧
    (∀ pr, getPullRequest prs prID = some pr →
      pr.status ≠ PullRequestStatus.statusMerged →
      oldID ∈ pr.assignedReviewers →
      getUser us oldID = none →
      reassignReviewer pick us prs prID oldID = (prs, Except.error UCError.notFound)) := by
  refine ⟨?_, ?_, ?_, ?_⟩
  · intro h
    unfold reassignReviewer
    rw [h]
  · intro pr hpr hm
    unfold reassignReviewer
    rw [hpr]
    dsimp only
    rw [if_pos hm]
  · intro pr hpr hm hna
    unfold reassignReviewer
    rw [hpr]
    dsimp only
    rw [if_neg hm, if_neg hna]
  · intro pr hpr hm ha hgu
    unfold reassignReviewer
    rw [hpr]
    dsimp only
    rw [if_neg hm, if_pos ha, hgu]

/-- Claim C3: when every active user on the old reviewer's team is excluded
(author or already assigned), ReassignReviewer fails with NoCandidate and
the stored pull requests are unchanged. -/
theorem reassignReviewer_noCandidate (pick : Nat) (us : List User)
    (prs : List PullRequest) (prID oldID : Nat) (pr : PullRequest) (oldReviewer : User)
    (hpr : getPullRequest prs prID = some pr)
    (hm : pr.status ≠ PullRequestStatus.statusMerged)
    (ha : oldID ∈ pr.assignedReviewers)
    (hold : getUser us oldID = some oldReviewer)
    (hempty : filterReplacementCandidates (getUsersByTeam us oldReviewer.teamName)
        pr.authorID pr.assignedReviewers = []) :
    reassignReviewer pick us prs prID oldID = (prs, Except.error UCError.noCandidate) := by
  unfold reassignReviewer
  rw [hpr]
  dsimp only
  rw [if_neg hm, if_pos ha, hold]
  unfold findReplacementReviewer
  dsimp only
  rw [dif_pos hempty]

/-- The number of selected reviewers is the smaller of the cap and the
candidate count, for any shuffle that permutes the candidates. -/
theorem selectRandomReviewers_length (shuffle : List User → List User)
    (cands : List User) (k : Nat)
    (hp : (shuffle cands).Perm cands) :
    (selectRandomReviewers shuffle cands k).length = min k cands.length := by
  unfold selectRandomReviewers
  dsimp only
  by_cases h : min cands.length k = 0
  · rw [if_pos h]
    simp only [List.length_nil]
    omega
  · rw [if_neg h]
    rw [List.length_map, List.length_take, hp.length_eq]
    omega

/-- Every selected reviewer identifier belongs to a candidate. -/
theorem selectRandomReviewers_mem (shuffle : List User → List User)
    (cands : List User) (k : Nat) (x : Nat)
    (hp : (shuffle cands).Perm cands)
    (hx : x ∈ selectRandomReviewers shuffle cands k) :
    ∃ u, u ∈ cands ∧ u.userID = x := by
  unfold selectRandomReviewers at hx
  dsimp only at hx
  by_cases h : min cands.length k = 0
  · rw [if_pos h] at hx
    simp at hx
  · rw [if_neg h] at hx
    obtain ⟨u, hu, rfl⟩ := List.mem_map.mp hx
    exact ⟨u, hp.mem_iff.mp ((List.take_sublist _ _).subset hu), rfl⟩

/-- Selected reviewer identifiers are pairwise distinct whenever the
candidate identifiers are. -/
theorem selectRandomReviewers_nodup (shuffle : List User → List User)
    (cands : List User) (k : Nat)
    (hp : (shuffle cands).Perm cands)
    (hnd : (cands.map (fun u => u.userID)).Nodup) :
    (selectRandomReviewers shuffle cands k).Nodup := by
  unfold selectRandomReviewers
  dsimp only
  by_cases h : min cands.length k = 0
  · rw [if_pos h]; exact List.nodup_nil
  · rw [if_neg h]
    have h1 : ((shuffle cands).map (fun u => u.userID)).Nodup :=
      ((hp.map (fun u => u.userID)).symm).nodup hnd
    rw [List.map_take]
    exact List.Nodup.sublist (List.take_sublist _ _) h1

/-- Reviewer candidates are drawn from the stored users. -/
theorem filterActiveCandidates_sublist (us : List User) (tn : String) (aid : Nat) :
    (filterActiveCandidates (getUsersByTeam us tn) aid).Sublist us :=
  (List.filter_sublist _).trans (List.filter_sublist _)

/-- Claim C1: a successful CreatePR persists a PR whose reviewer list has
length min(2, active non-author teammates), never contains the author, and
holds pairwise-distinct identifiers; zero eligible reviewers is not an
error. -/
theorem createPR_reviewer_spec
    (shuffle : List User → List User) (us : List User) (prs : List PullRequest)
    (prID : Nat) (prName : String) (authorID now : Nat) (author : User)
    (hsh : ∀ l, (shuffle l).Perm l)
    (hnd : (us.map (fun u => u.userID)).Nodup)
    (hfresh : prExists prs prID = false)
    (hauthor : getUser us authorID = some author) :
    ∃ pr, createPR shuffle us prs prID prName authorID now = (prs ++ [pr], Except.ok pr) ∧
      pr.assignedReviewers.length =
        min 2 (filterActiveCandidates (getUsersByTeam us author.teamName) authorID).length ∧
      authorID ∉ pr.assignedReviewers ∧
      pr.assignedReviewers.Nodup := by
  have haid : author.userID = authorID := (getUser_eq_some us authorID author hauthor).2
  have hrun : createPR shuffle us prs prID prName authorID now =
      (prs ++ [⟨prID, prName, authorID, PullRequestStatus.statusOpen,
        assignReviewers shuffle us author, now, none⟩],
       Except.ok ⟨prID, prName, authorID, PullRequestStatus.statusOpen,
        assignReviewers shuffle us author, now, none⟩) := by
    unfold createPR
    rw [if_neg (by simp [hfresh]), hauthor]
    dsimp only
    unfold createPullRequest
    rw [if_neg (by simp [hfresh])]
  refine ⟨_, hrun, ?_, ?_, ?_⟩
  · dsimp only
    unfold assignReviewers
    rw [selectRandomReviewers_length shuffle _ 2 (hsh _), haid]
  · dsimp only
    intro hmem
    unfold assignReviewers at hmem
    obtain ⟨u, hu, huid⟩ := selectRandomReviewers_mem shuffle _ 2 authorID (hsh _) hmem
    have hpred := (List.mem_filter.mp hu).2
    simp only [haid, Bool.and_eq_true, bne_iff_ne, ne_eq] at hpred
    exact hpred.1 huid
  · dsimp only
    unfold assignReviewers
    apply selectRandomReviewers_nodup shuffle _ 2 (hsh _)
    exact List.Nodup.sublist
      ((filterActiveCandidates_sublist us author.teamName author.userID).map
        (fun u => u.userID)) hnd

/-- Claim C9: CreatePR succeeds for every existing author with a fresh PR
id, with no requirement on the author's active flag: the IsActive filter is
applied only to reviewer candidates, never to the author. -/
theorem createPR_ignores_author_active
    (shuffle : List User → List User) (us : List User) (prs : List PullRequest)
    (prID : Nat) (prName : String) (authorID now : Nat) (author : User)
    (hfresh : prExists prs prID = false)
    (hauthor : getUser us authorID = some author) :
    ∃ pr, createPR shuffle us prs prID prName authorID now = (prs ++ [pr], Except.ok pr) ∧
      pr.authorID = authorID := by
  have hrun : createPR shuffle us prs prID prName authorID now =
      (prs ++ [⟨prID, prName, authorID, PullRequestStatus.statusOpen,
        assignReviewers shuffle us author, now, none⟩],
       Except.ok ⟨prID, prName, authorID, PullRequestStatus.statusOpen,
        assignReviewers shuffle us author, now, none⟩) := by
    unfold createPR
    rw [if_neg (by simp [hfresh]), hauthor]
    dsimp only
    unfold createPullRequest
    rw [if_neg (by simp [hfresh])]
  exact ⟨_, hrun, rfl⟩

/-- Claim C2: a successful ReassignReviewer replaces the old reviewer's
identifier in place at its position (same length, other positions intact)
by one new reviewer who is an active user of the old reviewer's team and is
neither the author nor any previously assigned reviewer. -/
theorem reassignReviewer_success_spec (pick : Nat) (us : List User)
    (prs : List PullRequest) (prID oldID : Nat) (pr : PullRequest)
    (oldReviewer : User) (prs2 : List PullRequest) (pr2 : PullRequest) (newID : Nat)
    (hpr : getPullRequest prs prID = some pr)
    (hold : getUser us oldID = some oldReviewer)
    (hsucc : reassignReviewer pick us prs prID oldID = (prs2, Except.ok (pr2, newID))) :
    (∃ u, u ∈ us ∧ u.userID = newID ∧ u.isActive = true ∧
      u.teamName = oldReviewer.teamName) ∧
    newID ≠ pr.authorID ∧
    newID ∉ pr.assignedReviewers ∧
    pr2.assignedReviewers.length = pr.assignedReviewers.length ∧
    (∃ i, pr.assignedReviewers[i]? = some oldID ∧
      pr2.assignedReviewers = pr.assignedReviewers.set i newID) := by
  unfold reassignReviewer at hsucc
  rw [hpr] at hsucc
  dsimp only at hsucc
  by_cases hm : pr.status = PullRequestStatus.statusMerged
  · rw [if_pos hm] at hsucc
    simp at hsucc
  rw [if_neg hm] at hsucc
  by_cases ha : oldID ∈ pr.assignedReviewers
  swap
  · rw [if_neg ha] at hsucc
    simp at hsucc
  rw [if_pos ha, hold] at hsucc
  dsimp only at hsucc
  cases hfr : findReplacementReviewer pick us oldReviewer.teamName pr.authorID
      pr.assignedReviewers with
  | error e =>
    rw [hfr] at hsucc
    simp at hsucc
  | ok newReviewer =>
    rw [hfr] at hsucc
    dsimp only at hsucc
    have hex : prExists prs pr.pullRequestID = true := by
      simp [prExists, (getPullRequest_eq_some prs prID pr hpr).2, hpr]
    unfold updatePullRequest at hsucc
    dsimp only at hsucc
    rw [if_pos hex] at hsucc
    dsimp only at hsucc
    simp only [Prod.mk.injEq, Except.ok.injEq] at hsucc
    obtain ⟨hprs2eq, hpr2eq, hideq⟩ := hsucc
    subst hideq
    have hcands := hfr
    unfold findReplacementReviewer at hcands
    dsimp only at hcands
    by_cases hc : filterReplacementCandidates (getUsersByTeam us oldReviewer.teamName)
        pr.authorID pr.assignedReviewers = []
    · rw [dif_pos hc] at hcands
      simp at hcands
    rw [dif_neg hc] at hcands
    simp only [Except.ok.injEq] at hcands
    have hmemc : newReviewer ∈
        filterReplacementCandidates (getUsersByTeam us oldReviewer.teamName)
          pr.authorID pr.assignedReviewers := by
      rw [← hcands]
      exact List.get_mem _ _ _
    have hmf := List.mem_filter.mp hmemc
    have hteam := List.mem_filter.mp hmf.1
    have hpred := hmf.2
    simp only [Bool.and_eq_true, bne_iff_ne, ne_eq, Bool.not_eq_true'] at hpred
    obtain ⟨⟨hact, hne⟩, hnc⟩ := hpred
    have hnotrev : newReviewer.userID ∉ pr.assignedReviewers := by
      simpa using hnc
    have htn : newReviewer.teamName = oldReviewer.teamName := by
      have := hteam.2
      simpa using this
    refine ⟨⟨newReviewer, hteam.1, rfl, hact, htn⟩, hne, hnotrev, ?_, ?_⟩
    · rw [← hpr2eq]
      dsimp only
      obtain ⟨i, hi, heq⟩ := replaceReviewer_set pr.assignedReviewers oldID
        newReviewer.userID ha
      rw [heq, List.length_set]
    · obtain ⟨i, hi, heq⟩ := replaceReviewer_set pr.assignedReviewers oldID
        newReviewer.userID ha
      exact ⟨i, hi, by rw [← hpr2eq]; exact heq⟩

/-- Appending consistent PRs preserves store consistency. -/
theorem prStoreConsistent_append (prs l : List PullRequest)
    (h : prStoreConsistent prs) (h2 : prStoreConsistent l) :
    prStoreConsistent (prs ++ l) := by
  intro pr hpr
  rcases List.mem_append.mp hpr with h3 | h3
  · exact h pr h3
  · exact h2 pr h3

/-- Overwriting entries with a consistent record preserves store
consistency. -/
theorem prStoreConsistent_map_update (prs : List PullRequest) (pr2 : PullRequest)
    (k : Nat) (h : prStoreConsistent prs) (h2 : mergedAtConsistent pr2) :
    prStoreConsistent
      (prs.map (fun p => if p.pullRequestID == k then pr2 else p)) := by
  intro p hp
  rcases List.mem_map.mp hp with ⟨q, hq, rfl⟩
  by_cases hqq : (q.pullRequestID == k) = true
  · rw [if_pos hqq]; exact h2
  · rw [if_neg hqq]; exact h q hq

/-- Claim C6: MergedAt is non-null iff status is Merged, preserved by every
operation: CreatePR stores Open with null MergedAt, MergePR sets both
together, ReassignReviewer changes neither field. -/
theorem mergedAt_iff_merged_preserved
    (shuffle : List User → List User) (pick : Nat) (us : List User)
    (prs : List PullRequest) (prID : Nat) (prName : String)
    (authorID oldID now : Nat)
    (h : prStoreConsistent prs) :
    prStoreConsistent (createPR shuffle us prs prID prName authorID now).1 ∧
    (∀ pr, (createPR shuffle us prs prID prName authorID now).2 = Except.ok pr →
      pr.status = PullRequestStatus.statusOpen ∧ pr.mergedAt = none) ∧
    prStoreConsistent (mergePR prs prID now).1 ∧
    prStoreConsistent (reassignReviewer pick us prs prID oldID).1 := by
  refine ⟨?_, ?_, ?_, ?_⟩
  · unfold createPR
    by_cases hex : prExists prs prID = true
    · rw [if_pos hex]; exact h
    rw [if_neg hex]
    cases hau : getUser us authorID with
    | none => exact h
    | some author =>
      dsimp only
      unfold createPullRequest
      dsimp only
      rw [if_neg hex]
      apply prStoreConsistent_append prs _ h
      intro pr hpr
      rw [List.mem_singleton] at hpr
      subst hpr
      simp [mergedAtConsistent]
  · intro pr hok
    unfold createPR at hok
    by_cases hex : prExists prs prID = true
    · rw [if_pos hex] at hok; simp at hok
    rw [if_neg hex] at hok
    cases hau : getUser us authorID with
    | none => rw [hau] at hok; simp at hok
    | some author =>
      rw [hau] at hok
      dsimp only at hok
      unfold createPullRequest at hok
      dsimp only at hok
      rw [if_neg hex] at hok
      dsimp only at hok
      simp only [Except.ok.injEq] at hok
      subst hok
      exact ⟨rfl, rfl⟩
  · have key : ∀ res, mergePR prs prID now = res → prStoreConsistent res.1 := by
      intro res hres
      unfold mergePR at hres
      cases hg : getPullRequest prs prID with
      | none =>
        rw [hg] at hres
        rw [← hres]
        exact h
      | some pr =>
        rw [hg] at hres
        dsimp only at hres
        by_cases hm : pr.status = PullRequestStatus.statusMerged
        · rw [if_pos hm] at hres
          rw [← hres]
          exact h
        · rw [if_neg hm] at hres
          unfold updatePullRequest at hres
          dsimp only at hres
          by_cases hex : prExists prs pr.pullRequestID = true
          · rw [if_pos hex] at hres
            dsimp only at hres
            rw [← hres]
            apply prStoreConsistent_map_update prs _ _ h
            simp [mergedAtConsistent]
          · rw [if_neg hex] at hres
            rw [← hres]
            exact h
    exact key _ rfl
  · have key : ∀ res, reassignReviewer pick us prs prID oldID = res →
        prStoreConsistent res.1 := by
      intro res hres
      unfold reassignReviewer at hres
      cases hg : getPullRequest prs prID with
      | none =>
        rw [hg] at hres
        rw [← hres]
        exact h
      | some pr =>
        rw [hg] at hres
        dsimp only at hres
        by_cases hm : pr.status = PullRequestStatus.statusMerged
        · rw [if_pos hm] at hres
          rw [← hres]
          exact h
        rw [if_neg hm] at hres
        by_cases ha : oldID ∈ pr.assignedReviewers
        swap
        · rw [if_neg ha] at hres
          rw [← hres]
          exact h
        rw [if_pos ha] at hres
        cases hou : getUser us oldID with
        | none =>
          rw [hou] at hres
          rw [← hres]
          exact h
        | some oldReviewer =>
          rw [hou] at hres
          dsimp only at hres
          cases hfr : findReplacementReviewer pick us oldReviewer.teamName pr.authorID
              pr.assignedReviewers with
          | error e =>
            rw [hfr] at hres
            rw [← hres]
            exact h
          | ok newReviewer =>
            rw [hfr] at hres
            dsimp only at hres
            unfold updatePullRequest at hres
            dsimp only at hres
            by_cases hex : prExists prs pr.pullRequestID = true
            · rw [if_pos hex] at hres
              dsimp only at hres
              rw [← hres]
              apply prStoreConsistent_map_update prs _ _ h
              have hmemp : pr ∈ prs := (getPullRequest_eq_some prs prID pr hg).1
              exact h pr hmemp
            · rw [if_neg hex] at hres
              rw [← hres]
              exact h
    exact key _ rfl

/-- The in-memory upsert step never fails and acts as upsertUserMem. -/
theorem upsertMember_memory (us : List User) (m : User) :
    upsertMember memoryUserOps us m = (upsertUserMem us m, none) := by
  unfold upsertMember upsertUserMem memoryUserOps updateUser createUser
  dsimp only
  by_cases h : userExists us m.userID = true
  · simp [h]
  · simp [h]

/-- Looking up an identifier different from the overwritten key is
unaffected by an in-place record replacement. -/
theorem getUser_map_replace_ne (us : List User) (m : User) (id : Nat)
    (hne : id ≠ m.userID) :
    getUser (us.map (fun x => if x.userID == m.userID then m else x)) id =
      getUser us id := by
  induction us with
  | nil => rfl
  | cons x xs ih =>
    rw [List.map_cons]
    by_cases hx : (x.userID == m.userID) = true
    · rw [if_pos hx, getUser_cons, getUser_cons]
      have h1 : ¬(m.userID = id) := fun hh => hne hh.symm
      have hx2 : x.userID = m.userID := by simpa using hx
      have h2 : ¬(x.userID = id) := by rw [hx2]; exact h1
      rw [if_neg h1, if_neg h2]
      exact ih
    · rw [if_neg hx, getUser_cons, getUser_cons]
      by_cases h2 : x.userID = id
      · rw [if_pos h2, if_pos h2]
      · rw [if_neg h2, if_neg h2]
        exact ih

/-- Replacing the record stored under an existing key makes lookups of that
key return the new record. -/
theorem getUser_map_replace_self (us : List User) (m : User)
    (he : userExists us m.userID = true) :
    getUser (us.map (fun x => if x.userID == m.userID then m else x)) m.userID =
      some m := by
  induction us with
  | nil => simp [userExists, getUser] at he
  | cons x xs ih =>
    rw [List.map_cons]
    by_cases hx : (x.userID == m.userID) = true
    · rw [if_pos hx, getUser_cons, if_pos rfl]
    · have hx2 : ¬(x.userID = m.userID) := by simpa using hx
      rw [if_neg hx, getUser_cons, if_neg hx2]
      apply ih
      unfold userExists at he ⊢
      rw [getUser_cons, if_neg hx2] at he
      exact he

/-- A user lookup distributes over an appended store. -/
theorem getUser_append (us vs : List User) (id : Nat) :
    getUser (us ++ vs) id = (getUser us id).or (getUser vs id) := by
  unfold getUser
  exact List.find?_append

/-- The effect of one in-memory upsert on all lookups: the upserted key now
maps to the new record, every other key is untouched. -/
theorem getUser_upsert (us : List User) (m : User) (id : Nat) :
    getUser (upsertUserMem us m) id =
      if id = m.userID then some m else getUser us id := by
  unfold upsertUserMem
  by_cases he : userExists us m.userID = true
  · rw [if_pos he]
    by_cases hid : id = m.userID
    · rw [if_pos hid, hid]
      exact getUser_map_replace_self us m he
    · rw [if_neg hid]
      exact getUser_map_replace_ne us m id hid
  · rw [if_neg he]
    rw [getUser_append]
    by_cases hid : id = m.userID
    · rw [if_pos hid]
      have h1 : getUser us id = none := by
        cases hgu : getUser us id with
        | none => rfl
        | some u =>
          rw [Bool.not_eq_true] at he
          unfold userExists at he
          rw [hid] at hgu
          rw [hgu] at he
          simp at he
      rw [h1, Option.none_or, getUser_cons, if_pos hid.symm]
    · rw [if_neg hid]
      have h2 : getUser [m] id = none := by
        have hne2 : ¬(m.userID = id) := fun hh => hid hh.symm
        rw [getUser_cons, if_neg hne2]
        rfl
      rw [h2, Option.or_none]

/-- The in-memory member upserts never fail and fold upsertUserMem over the
member list. -/
theorem createOrUpdateMembers_eq_foldl (members : List User) (us : List User) :
    createOrUpdateMembersA memoryUserOps us members =
      (members.foldl upsertUserMem us, none) := by
  induction members generalizing us with
  | nil => rfl
  | cons m rest ih =>
    unfold createOrUpdateMembersA
    rw [upsertMember_memory]
    dsimp only
    rw [List.foldl_cons]
    exact ih (upsertUserMem us m)

/-- The last element of a nonempty list, via Option.or. -/
theorem getLast?_cons_or {α : Type} (a : α) (l : List α) :
    (a :: l).getLast? = l.getLast?.or (some a) := by
  induction l generalizing a with
  | nil => rfl
  | cons b t ih =>
    rw [List.getLast?_cons_cons, ih b, Option.or_assoc]
    rfl

/-- After folding the upserts, each identifier maps to the last member
record supplied for it, and to its previous record when none was. -/
theorem getUser_foldl_upsert (members : List User) (us : List User) (id : Nat) :
    getUser (members.foldl upsertUserMem us) id =
      ((members.filter (fun x => x.userID == id)).getLast?).or (getUser us id) := by
  induction members generalizing us with
  | nil => rfl
  | cons m rest ih =>
    rw [List.foldl_cons, ih (upsertUserMem us m), getUser_upsert, List.filter_cons]
    by_cases hm : (m.userID == id) = true
    · have hid : id = m.userID := by
        have h1 : m.userID = id := by simpa using hm
        exact h1.symm
      rw [if_pos hm, if_pos hid, getLast?_cons_or, Option.or_assoc]
      rfl
    · have hid : ¬(id = m.userID) := fun hh => hm (by simp [hh])
      rw [if_neg hm, if_neg hid]

/-- Claim C10: duplicate user identifiers in the members list do not make
the upsert loop fail with AlreadyExists; the stored record for the
identifier equals the last occurrence supplied. -/
theorem createOrUpdateMembers_duplicate_ids (us : List User) (members : List User)
    (id : Nat)
    (hdup : 2 ≤ (members.filter (fun x => x.userID == id)).length) :
    (createOrUpdateMembers us members).2 = none ∧
    (∀ m, (members.filter (fun x => x.userID == id)).getLast? = some m →
      getUser (createOrUpdateMembers us members).1 id = some m) := by
  unfold createOrUpdateMembers
  rw [createOrUpdateMembers_eq_foldl]
  refine ⟨rfl, ?_⟩
  intro m hm
  dsimp only
  rw [getUser_foldl_upsert, hm]
  rfl

/-- Running the member upserts on a longer list first replays a successful
prefix. -/
theorem createOrUpdateMembersA_append {σ : Type} (ops : UserRepoOps σ)
    (pre : List User) (s s1 : σ) (rest : List User)
    (hpre : createOrUpdateMembersA ops s pre = (s1, none)) :
    createOrUpdateMembersA ops s (pre ++ rest) =
      createOrUpdateMembersA ops s1 rest := by
  induction pre generalizing s with
  | nil =>
    have h1 : s = s1 := congrArg Prod.fst hpre
    subst h1
    rfl
  | cons m t ih =>
    rw [List.cons_append]
    rw [createOrUpdateMembersA] at hpre
    conv_lhs => rw [createOrUpdateMembersA]
    cases hu : upsertMember ops s m with
    | mk s2 oe =>
      rw [hu] at hpre
      cases oe with
      | none =>
        dsimp only at hpre ⊢
        exact ih s2 hpre
      | some e =>
        dsimp only at hpre
        simp at hpre

/-- Claim C7: when a member upsert fails after a successful prefix, AddTeam
returns the failing error, writes no team record, and keeps the user-state
produced by the earlier upserts (no rollback). -/
theorem addTeam_partial_failure {σ : Type} (ops : UserRepoOps σ) (ts : List Team)
    (s s1 s2 : σ) (team : Team) (pre : List User) (m : User) (rest : List User)
    (e : UCError)
    (hteam : teamExists ts team.teamName = false)
    (hpre : createOrUpdateMembersA ops s pre = (s1, none))
    (hfail : upsertMember ops s1 m = (s2, some e)) :
    addTeamA ops ts s team (pre ++ m :: rest) = ((ts, s2), Except.error e) := by
  unfold addTeamA
  rw [if_neg (by simp [hteam])]
  rw [createOrUpdateMembersA_append ops pre s s1 (m :: rest) hpre]
  unfold createOrUpdateMembersA
  rw [hfail]

/-- The identifiers GetUsersByIDs resolves are exactly the requested ones
that have a user record, in order; absent identifiers are dropped. -/
theorem getUsersByIDs_map_userID (us : List User) (ids : List Nat) :
    (getUsersByIDs us ids).map (fun u => u.userID) =
      ids.filter (fun id => userExists us id) := by
  induction ids with
  | nil => rfl
  | cons id rest ih =>
    unfold getUsersByIDs
    rw [List.filterMap_cons, List.filter_cons]
    cases hgu : getUser us id with
    | none =>
      have hb : userExists us id = false := by
        unfold userExists
        rw [hgu]
        rfl
      rw [hb]
      rw [if_neg (by simp)]
      unfold getUsersByIDs at ih
      exact ih
    | some u =>
      have hb : userExists us id = true := by
        unfold userExists
        rw [hgu]
        rfl
      have hu : u.userID = id := (getUser_eq_some us id u hgu).2
      rw [hb, if_pos rfl, List.map_cons, hu]
      unfold getUsersByIDs at ih
      rw [ih]

/-- A team created under a fresh name is found by its name afterwards. -/
theorem getTeamRec_append_fresh (ts : List Team) (team : Team)
    (hteam : teamExists ts team.teamName = false) :
    getTeamRec (ts ++ [team]) team.teamName = some team := by
  unfold getTeamRec
  rw [List.find?_append]
  have h1 : getTeamRec ts team.teamName = none := by
    cases hg : getTeamRec ts team.teamName with
    | none => rfl
    | some t =>
      unfold teamExists at hteam
      rw [hg] at hteam
      simp at hteam
  unfold getTeamRec at h1
  rw [h1, Option.none_or]
  simp [List.find?_cons]

/-- Claim C8: after a successful AddTeam, GetTeam under the same name
succeeds with the identical team record (same name, same member-identifier
list); the resolved member records carry exactly the identifiers that have
user records (absent ones silently omitted), and every member identifier
upserted by the call resolves to its last supplied record. -/
theorem addTeam_getTeam_roundtrip (ts : List Team) (us : List User)
    (team : Team) (members : List User) (ts2 : List Team) (us2 : List User)
    (tres : Team)
    (h : addTeam ts us team members = ((ts2, us2), Except.ok tres)) :
    tres = team ∧
    getTeam ts2 us2 team.teamName =
      Except.ok (team, getUsersByIDs us2 team.members) ∧
    (getUsersByIDs us2 team.members).map (fun u => u.userID) =
      team.members.filter (fun id => userExists us2 id) ∧
    (∀ id m, (members.filter (fun x => x.userID == id)).getLast? = some m →
      getUser us2 id = some m) := by
  unfold addTeam addTeamA at h
  by_cases ht : teamExists ts team.teamName = true
  · rw [if_pos ht] at h
    simp at h
  rw [if_neg ht] at h
  rw [createOrUpdateMembers_eq_foldl] at h
  dsimp only at h
  unfold createTeam at h
  rw [if_neg ht] at h
  dsimp only at h
  simp only [Prod.mk.injEq, Except.ok.injEq] at h
  obtain ⟨⟨hts2, hus2⟩, htres⟩ := h
  subst hts2
  subst hus2
  subst htres
  have hteamF : teamExists ts team.teamName = false := by
    rw [Bool.not_eq_true] at ht
    exact ht
  refine ⟨rfl, ?_, getUsersByIDs_map_userID _ _, ?_⟩
  · unfold getTeam
    rw [getTeamRec_append_fresh ts team hteamF]
  · intro id m hm
    rw [getUser_foldl_upsert, hm]
    rfl

/-- Witness for createPR_reviewer_spec: author u1 on team A with two active
teammates gets exactly two distinct reviewers, never herself. -/
theorem createPR_reviewer_spec_witness :
    ∃ pr, createPR (fun l => l)
        [⟨1, "a", "A", true⟩, ⟨2, "b", "A", true⟩, ⟨3, "c", "A", true⟩]
        [] 10 "pr" 1 0 = ([] ++ [pr], Except.ok pr) ∧
      pr.assignedReviewers.length =
        min 2 (filterActiveCandidates
          (getUsersByTeam
            [⟨1, "a", "A", true⟩, ⟨2, "b", "A", true⟩, ⟨3, "c", "A", true⟩] "A")
          1).length ∧
      1 ∉ pr.assignedReviewers ∧
      pr.assignedReviewers.Nodup :=
  createPR_reviewer_spec (fun l => l)
    [⟨1, "a", "A", true⟩, ⟨2, "b", "A", true⟩, ⟨3, "c", "A", true⟩]
    [] 10 "pr" 1 0 ⟨1, "a", "A", true⟩
    (fun l => List.Perm.refl l) (by decide) (by rfl) (by rfl)

/-- Witness for reassignReviewer_success_spec: replacing reviewer u2 on a
four-person team picks the only remaining candidate u4, in place. -/
theorem reassignReviewer_success_spec_witness :
    (∃ u, u ∈ [(⟨1, "a", "A", true⟩ : User), ⟨2, "b", "A", true⟩,
        ⟨3, "c", "A", true⟩, ⟨4, "d", "A", true⟩] ∧
      u.userID = 4 ∧ u.isActive = true ∧ u.teamName = "A") ∧
    (4 : Nat) ≠ 1 ∧
    (4 : Nat) ∉ ([2, 3] : List Nat) ∧
    ([4, 3] : List Nat).length = ([2, 3] : List Nat).length ∧
    (∃ i, ([2, 3] : List Nat)[i]? = some 2 ∧
      ([4, 3] : List Nat) = ([2, 3] : List Nat).set i 4) :=
  reassignReviewer_success_spec 0
    [⟨1, "a", "A", true⟩, ⟨2, "b", "A", true⟩, ⟨3, "c", "A", true⟩, ⟨4, "d", "A", true⟩]
    [⟨10, "pr", 1, PullRequestStatus.statusOpen, [2, 3], 0, none⟩] 10 2
    ⟨10, "pr", 1, PullRequestStatus.statusOpen, [2, 3], 0, none⟩
    ⟨2, "b", "A", true⟩
    [⟨10, "pr", 1, PullRequestStatus.statusOpen, [4, 3], 0, none⟩]
    ⟨10, "pr", 1, PullRequestStatus.statusOpen, [4, 3], 0, none⟩ 4
    (by rfl) (by rfl) (by rfl)

/-- Witness for reassignReviewer_noCandidate: the spec scenario — reviewers
u2,u3, author u1, whole team assigned or author. -/
theorem reassignReviewer_noCandidate_witness :
    reassignReviewer 0
      [⟨1, "a", "A", true⟩, ⟨2, "b", "A", true⟩, ⟨3, "c", "A", true⟩]
      [⟨10, "pr", 1, PullRequestStatus.statusOpen, [2, 3], 0, none⟩] 10 2 =
      ([⟨10, "pr", 1, PullRequestStatus.statusOpen, [2, 3], 0, none⟩],
        Except.error UCError.noCandidate) :=
  reassignReviewer_noCandidate 0
    [⟨1, "a", "A", true⟩, ⟨2, "b", "A", true⟩, ⟨3, "c", "A", true⟩]
    [⟨10, "pr", 1, PullRequestStatus.statusOpen, [2, 3], 0, none⟩] 10 2
    ⟨10, "pr", 1, PullRequestStatus.statusOpen, [2, 3], 0, none⟩
    ⟨2, "b", "A", true⟩
    (by rfl) (by decide) (by decide) (by rfl) (by rfl)

/-- Witness for reassignReviewer_precondition_order: one concrete run per
failing precondition, in the checked order. -/
theorem reassignReviewer_precondition_order_witness :
    reassignReviewer 0 [] [] 5 2 = ([], Except.error UCError.notFound) ∧
    reassignReviewer 0 []
      [⟨10, "pr", 1, PullRequestStatus.statusMerged, [2, 3], 0, some 1⟩] 10 2 =
      ([⟨10, "pr", 1, PullRequestStatus.statusMerged, [2, 3], 0, some 1⟩],
        Except.error UCError.prMerged) ∧
    reassignReviewer 0 []
      [⟨10, "pr", 1, PullRequestStatus.statusOpen, [2, 3], 0, none⟩] 10 7 =
      ([⟨10, "pr", 1, PullRequestStatus.statusOpen, [2, 3], 0, none⟩],
        Except.error UCError.notAssigned) ∧
    reassignReviewer 0 []
      [⟨10, "pr", 1, PullRequestStatus.statusOpen, [2, 3], 0, none⟩] 10 2 =
      ([⟨10, "pr", 1, PullRequestStatus.statusOpen, [2, 3], 0, none⟩],
        Except.error UCError.notFound) :=
  ⟨(reassignReviewer_precondition_order 0 [] [] 5 2).1 (by rfl),
   (reassignReviewer_precondition_order 0 []
      [⟨10, "pr", 1, PullRequestStatus.statusMerged, [2, 3], 0, some 1⟩] 10 2).2.1
     ⟨10, "pr", 1, PullRequestStatus.statusMerged, [2, 3], 0, some 1⟩ (by rfl) (by rfl),
   (reassignReviewer_precondition_order 0 []
      [⟨10, "pr", 1, PullRequestStatus.statusOpen, [2, 3], 0, none⟩] 10 7).2.2.1
     ⟨10, "pr", 1, PullRequestStatus.statusOpen, [2, 3], 0, none⟩
     (by rfl) (by decide) (by decide),
   (reassignReviewer_precondition_order 0 []
      [⟨10, "pr", 1, PullRequestStatus.statusOpen, [2, 3], 0, none⟩] 10 2).2.2.2
     ⟨10, "pr", 1, PullRequestStatus.statusOpen, [2, 3], 0, none⟩
     (by rfl) (by decide) (by decide) (by rfl)⟩

/-- Witness for mergePR_idempotent: merging once at time 5, the second call
at time 7 returns the same PR and timestamp with unchanged state. -/
theorem mergePR_idempotent_witness :
    mergePR [⟨10, "pr", 1, PullRequestStatus.statusMerged, [2, 3], 0, some 5⟩] 10 7 =
      ([⟨10, "pr", 1, PullRequestStatus.statusMerged, [2, 3], 0, some 5⟩],
        Except.ok ⟨10, "pr", 1, PullRequestStatus.statusMerged, [2, 3], 0, some 5⟩) :=
  mergePR_idempotent [⟨10, "pr", 1, PullRequestStatus.statusOpen, [2, 3], 0, none⟩]
    10 5 7
    [⟨10, "pr", 1, PullRequestStatus.statusMerged, [2, 3], 0, some 5⟩]
    ⟨10, "pr", 1, PullRequestStatus.statusMerged, [2, 3], 0, some 5⟩
    (by rfl)

/-- Witness for mergedAt_iff_merged_preserved on a concrete two-PR store. -/
theorem mergedAt_iff_merged_preserved_witness :
    prStoreConsistent (createPR (fun l => l)
      [⟨1, "a", "A", true⟩, ⟨2, "b", "A", true⟩]
      [⟨10, "pr", 1, PullRequestStatus.statusOpen, [2], 0, none⟩,
       ⟨11, "qr", 1, PullRequestStatus.statusMerged, [2], 0, some 3⟩]
      10 "pr" 1 5).1 ∧
    (∀ pr, (createPR (fun l => l)
      [⟨1, "a", "A", true⟩, ⟨2, "b", "A", true⟩]
      [⟨10, "pr", 1, PullRequestStatus.statusOpen, [2], 0, none⟩,
       ⟨11, "qr", 1, PullRequestStatus.statusMerged, [2], 0, some 3⟩]
      10 "pr" 1 5).2 = Except.ok pr →
      pr.status = PullRequestStatus.statusOpen ∧ pr.mergedAt = none) ∧
    prStoreConsistent (mergePR
      [⟨10, "pr", 1, PullRequestStatus.statusOpen, [2], 0, none⟩,
       ⟨11, "qr", 1, PullRequestStatus.statusMerged, [2], 0, some 3⟩] 10 5).1 ∧
    prStoreConsistent (reassignReviewer 0
      [⟨1, "a", "A", true⟩, ⟨2, "b", "A", true⟩]
      [⟨10, "pr", 1, PullRequestStatus.statusOpen, [2], 0, none⟩,
       ⟨11, "qr", 1, PullRequestStatus.statusMerged, [2], 0, some 3⟩] 10 2).1 :=
  mergedAt_iff_merged_preserved (fun l => l) 0
    [⟨1, "a", "A", true⟩, ⟨2, "b", "A", true⟩]
    [⟨10, "pr", 1, PullRequestStatus.statusOpen, [2], 0, none⟩,
     ⟨11, "qr", 1, PullRequestStatus.statusMerged, [2], 0, some 3⟩]
    10 "pr" 1 2 5
    (by simp [prStoreConsistent, mergedAtConsistent])

/-- Witness for addTeam_partial_failure: the second create fails under
flakyUserOps, leaving the first upsert applied and no team record. -/
theorem addTeam_partial_failure_witness :
    addTeamA flakyUserOps [] 0 ⟨"A", [1, 2]⟩
      [⟨1, "a", "A", true⟩, ⟨2, "b", "A", true⟩] =
      (([], 1), Except.error UCError.alreadyExists) :=
  addTeam_partial_failure flakyUserOps [] 0 1 1 ⟨"A", [1, 2]⟩
    [⟨1, "a", "A", true⟩] ⟨2, "b", "A", true⟩ [] UCError.alreadyExists
    (by rfl) (by rfl) (by rfl)

/-- Witness for addTeam_getTeam_roundtrip: member id 9 has no user record
and is silently omitted; u1 and u2 resolve to their supplied records. -/
theorem addTeam_getTeam_roundtrip_witness :
    (⟨"A", [1, 2, 9]⟩ : Team) = ⟨"A", [1, 2, 9]⟩ ∧
    getTeam [⟨"A", [1, 2, 9]⟩] [⟨1, "a", "A", true⟩, ⟨2, "b", "A", true⟩] "A" =
      Except.ok (⟨"A", [1, 2, 9]⟩,
        getUsersByIDs [⟨1, "a", "A", true⟩, ⟨2, "b", "A", true⟩] [1, 2, 9]) ∧
    (getUsersByIDs [⟨1, "a", "A", true⟩, ⟨2, "b", "A", true⟩] [1, 2, 9]).map
        (fun u => u.userID) =
      ([1, 2, 9] : List Nat).filter
        (fun id => userExists [⟨1, "a", "A", true⟩, ⟨2, "b", "A", true⟩] id) ∧
    (∀ id m,
      (([⟨1, "a", "A", true⟩, ⟨2, "b", "A", true⟩] : List User).filter
        (fun x => x.userID == id)).getLast? = some m →
      getUser [⟨1, "a", "A", true⟩, ⟨2, "b", "A", true⟩] id = some m) :=
  addTeam_getTeam_roundtrip [] [] ⟨"A", [1, 2, 9]⟩
    [⟨1, "a", "A", true⟩, ⟨2, "b", "A", true⟩]
    [⟨"A", [1, 2, 9]⟩] [⟨1, "a", "A", true⟩, ⟨2, "b", "A", true⟩]
    ⟨"A", [1, 2, 9]⟩ (by rfl)

/-- Witness for createPR_ignores_author_active: an inactive author's PR is
still created. -/
theorem createPR_ignores_author_active_witness :
    ∃ pr, createPR (fun l => l) [⟨1, "a", "A", false⟩] [] 10 "pr" 1 0 =
        ([] ++ [pr], Except.ok pr) ∧
      pr.authorID = 1 :=
  createPR_ignores_author_active (fun l => l) [⟨1, "a", "A", false⟩] [] 10 "pr" 1 0
    ⟨1, "a", "A", false⟩ (by rfl) (by rfl)

/-- Witness for createOrUpdateMembers_duplicate_ids: id 1 appears twice;
the upserts succeed and keep the second record. -/
theorem createOrUpdateMembers_duplicate_ids_witness :
    (createOrUpdateMembers [] [⟨1, "a", "A", true⟩, ⟨1, "z", "B", false⟩]).2 = none ∧
    (∀ m, (([⟨1, "a", "A", true⟩, ⟨1, "z", "B", false⟩] : List User).filter
        (fun x => x.userID == 1)).getLast? = some m →
      getUser (createOrUpdateMembers []
        [⟨1, "a", "A", true⟩, ⟨1, "z", "B", false⟩]).1 1 = some m) :=
  createOrUpdateMembers_duplicate_ids [] [⟨1, "a", "A", true⟩, ⟨1, "z", "B", false⟩] 1
    (by decide)
